import Mathlib

/-!
Shallow embedding of the auditarr classification core
(github.com/jdpx/auditarr) and verification of its specification.

Conventions of the embedding:
* Go strings are Lean `String`s; the string helpers below operate on the
  underlying `List Char` so that everything reduces in the kernel.
* `time.Time` values are modelled as `Int` nanosecond ticks; the Go zero
  value of `time.Time` is modelled as tick `0` (`IsZero` becomes `= 0`).
  `time.Since(t)` becomes `now - t` with `now` passed explicitly, and
  `time.Duration(hours) * time.Hour` becomes `hours * hourNs`.
* `strings.ToLower` is modelled by ASCII lowering (`Char.toLower`); the
  repository only compares against ASCII extension and path literals.
* Go maps used by the engine (`buildArrLookup`) are modelled as
  association lists where a later insertion shadows an earlier one,
  which matches Go's overwrite-on-insert semantics for lookups.
* Where the Go code iterates a map in unspecified order
  (`utils.NormalizePath` over the path-mapping table), the map is
  modelled as a list of pairs iterated in list order; this determinizes
  the unspecified Go iteration order and is noted at the definition.
-/

namespace Auditarr

/-- Lowercase a character list; models Go strings.ToLower restricted to
ASCII (the repository compares only against ASCII literals). -/
def lowerL (l : List Char) : List Char := l.map Char.toLower

/-- Lowercase a string via its character list. -/
def toLowerS (s : String) : String := ⟨lowerL s.data⟩

/-- Model of Go strings.HasPrefix s pre. -/
def startsWithS (s pre : String) : Bool := pre.data.isPrefixOf s.data

/-- Model of Go strings.TrimPrefix: drop pre from the front of s when it
is there, otherwise return s unchanged. -/
def trimStartS (s pre : String) : String :=
  if pre.data.isPrefixOf s.data then ⟨s.data.drop pre.data.length⟩ else s

/-- Helper for filepath.Ext: walks the REVERSED path, accumulating the
characters seen so far; stops at a path separator (no extension) or at
the first dot from the right (extension found). Mirrors Go's backward
scan in path/filepath.Ext. -/
def extAux : List Char → List Char → List Char
  | [], _ => []
  | c :: rest, acc =>
    if c = '/' then []
    else if c = '.' then c :: acc
    else extAux rest (c :: acc)

/-- Model of Go filepath.Ext on the character list of a path: the suffix
beginning at the final dot in the final slash-separated element, empty if
there is no dot. -/
def extL (p : List Char) : List Char := extAux p.reverse []

/-- Model of Go filepath.Base on the character list of a path: strip
trailing slashes, then keep everything after the last slash; empty path
gives ".", all-slash path gives "/". -/
def baseL (p : List Char) : List Char :=
  if p = [] then ['.']
  else
    let rev := p.reverse.dropWhile (fun c => c = '/')
    if rev = [] then ['/']
    else (rev.takeWhile (fun c => c ≠ '/')).reverse

/-- Model of Go strings.Split(s, "."): dot-separated segments, keeping
empty segments, always at least one segment. -/
def splitDots : List Char → List (List Char)
  | [] => [[]]
  | c :: rest =>
    match splitDots rest with
    | [] => [[c]]
    | h :: t => if c = '.' then [] :: h :: t else (c :: h) :: t

/-- Split a path's character list on slashes (helper for filepath.Clean);
keeps empty segments. -/
def splitSlashes : List Char → List (List Char)
  | [] => [[]]
  | c :: rest =>
    match splitSlashes rest with
    | [] => [[c]]
    | h :: t => if c = '/' then [] :: h :: t else (c :: h) :: t

/-- One step of the filepath.Clean element processing over a stack of
kept components: empty and "." components are dropped; ".." pops a
non-".." component, is dropped at the root of a rooted path, and is kept
otherwise; every other component is pushed. -/
def cleanStep (rooted : Bool) (stack : List (List Char)) (c : List Char) :
    List (List Char) :=
  if c = [] ∨ c = ['.'] then stack
  else if c = ['.', '.'] then
    match stack with
    | [] => if rooted then [] else [c]
    | top :: rest => if top = ['.', '.'] then c :: top :: rest else rest
  else c :: stack

/-- Model of Go filepath.Clean (unix rules) on a character list:
shortest lexical equivalent of the path, "." for the empty path. -/
def cleanL (p : List Char) : List Char :=
  if p = [] then ['.']
  else
    let rooted := p.head? = some '/'
    let stack := (splitSlashes p).foldl (cleanStep rooted) []
    let body := List.intercalate ['/'] stack.reverse
    if rooted then '/' :: body
    else if body = [] then ['.'] else body

/-- Model of Go filepath.Clean on strings. -/
def cleanS (s : String) : String := ⟨cleanL s.data⟩

/-- Model of Go filepath.Join(a, b): non-empty elements joined with a
slash and then cleaned; empty when both elements are empty. -/
def joinPath (a b : String) : String :=
  if a.data = [] ∧ b.data = [] then ""
  else if a.data = [] then cleanS b
  else if b.data = [] then cleanS a
  else ⟨cleanL (a.data ++ '/' :: b.data)⟩

/-- One hour in nanosecond ticks, the unit of Go time.Duration. -/
def hourNs : Int := 3600000000000

/-! Data model, from internal/models. -/

/-- Model of models.MediaFile (internal/models/media.go). Timestamps are
Int nanosecond ticks; Source models MediaFileSource as its string value. -/
structure MediaFile where
  Path : String
  Size : Int
  ModTime : Int
  HardlinkCount : Int
  IsHardlinked : Bool
  Source : String
deriving DecidableEq, Repr

/-- Model of (m MediaFile) WithinGraceWindow(hours): false for a
non-positive grace, true for a modification time in the future, else
elapsed time under the grace duration. now replaces Go time.Now(). -/
def MediaFile.WithinGraceWindow (m : MediaFile) (now : Int) (hours : Int) : Bool :=
  if hours ≤ 0 then false
  else
    let elapsed := now - m.ModTime
    if elapsed < 0 then true
    else elapsed < hours * hourNs

/-- Model of models.TorrentState constant StateCompleted. -/
def StateCompleted : String := "completed"

/-- Model of models.Torrent (internal/models/torrent.go); CompletedOn is
an Int tick where 0 models the Go zero time.Time. -/
structure Torrent where
  Hash : String
  Name : String
  SavePath : String
  State : String
  CompletedOn : Int
  Files : List String
deriving DecidableEq, Repr

/-- Model of (t Torrent) WithinGraceWindow(hours): false for a
non-positive grace, then true for the zero completion time, then true
for a future completion time, else elapsed under the grace duration. -/
def Torrent.WithinGraceWindow (t : Torrent) (now : Int) (hours : Int) : Bool :=
  if hours ≤ 0 then false
  else if t.CompletedOn = 0 then true
  else
    let elapsed := now - t.CompletedOn
    if elapsed < 0 then true
    else elapsed < hours * hourNs

/-- Model of the models.MediaClassification constants
(internal/models/classification.go); the Go type is a string type. -/
def MediaHealthy : String := "healthy"

/-- Classification constant at_risk. -/
def MediaAtRisk : String := "at_risk"

/-- Classification constant orphan. -/
def MediaOrphan : String := "orphan"

/-- Model of models.ArrFile (internal/models/classification.go). -/
structure ArrFile where
  Path : String
  SeriesID : Int
  EpisodeID : Int
  MovieID : Int
  Monitored : Bool
  ImportDate : Int
deriving DecidableEq, Repr

/-- Model of (af ArrFile) IsKnown() for a non-nil receiver: non-empty
path and a series or movie id set. -/
def ArrFile.IsKnown (af : ArrFile) : Bool :=
  af.Path ≠ "" && (af.SeriesID > 0 || af.MovieID > 0)

/-- Model of models.ClassifiedMedia. -/
structure ClassifiedMedia where
  File : MediaFile
  KnownToArr : Bool
  ArrSource : String
  Classification : String
  Reason : String
deriving DecidableEq, Repr

/-- Model of models.SuspiciousFile. -/
structure SuspiciousFile where
  Path : String
  Reason : String
deriving DecidableEq, Repr

/-- Model of models.FilePermissions; Mode is the raw uint32 stat mode,
modelled as Nat (no arithmetic overflows it here). -/
structure FilePermissions where
  Path : String
  Mode : Nat
  OwnerUID : Int
  GroupGID : Int
  IsDirectory : Bool
deriving DecidableEq, Repr

/-- Model of (fp FilePermissions) HasSGID(): the 02000 mode bit. -/
def FilePermissions.HasSGID (fp : FilePermissions) : Bool :=
  fp.Mode &&& 0o2000 ≠ 0

/-- Model of (fp FilePermissions) GroupWritable(): the 0020 mode bit. -/
def FilePermissions.GroupWritable (fp : FilePermissions) : Bool :=
  fp.Mode &&& 0o020 ≠ 0

/-- Model of models.PermissionIssue. -/
structure PermissionIssue where
  Path : String
  CurrentMode : Nat
  ExpectedMode : Nat
  Owner : Int
  Group : Int
  Issue : String
  Severity : String
  FixHint : String
deriving DecidableEq, Repr

/-! Suspicious-file detection, from internal/models/suspicious.go. -/

/-- Model of the defaultSuspiciousExtensions package variable. -/
def defaultSuspiciousExtensions : List String :=
  [".exe", ".msi", ".bat", ".cmd", ".com", ".scr",
   ".ps1", ".vbs", ".js", ".jar", ".dll", ".sys",
   ".reg", ".lnk", ".pif", ".apk", ".dmg", ".pkg",
   ".iso", ".zip", ".rar", ".7z", ".tar", ".gz"]

/-- Model of isArchiveExtension: membership of the already-lowered
extension in the fixed archive list. -/
def isArchiveExtension (ext : String) : Bool :=
  [".zip", ".rar", ".7z", ".tar", ".gz", ".iso"].contains ext

/-- Model of isMediaExtension: the segment, lowered, is one of the fixed
media extensions (without dot). -/
def isMediaExtension (ext : String) : Bool :=
  ["mkv", "mp4", "avi", "mov", "wmv", "flv", "webm", "m4v", "mpg", "mpeg"].contains
    (toLowerS ext)

/-- Model of models.IsSuspicious(path, extensions, flagArchives).
The Go first loop returns at the first extension equal to ext, so it is
membership; likewise the double-extension loop is membership of lastExt
with the penultimate-segment condition. -/
def IsSuspicious (path : String) (extensions : List String) (flagArchives : Bool) :
    Bool × String :=
  let exts := if extensions = [] then defaultSuspiciousExtensions else extensions
  let ext := toLowerS ⟨extL path.data⟩
  if ext = "" then (false, "")
  else if exts.contains ext then
    if isArchiveExtension ext && !flagArchives then (false, "")
    else (true, "suspicious_extension")
  else
    let parts := splitDots (baseL path.data)
    if parts.length > 2 then
      let lastExt : String := ⟨'.' :: lowerL (parts.getLastD [])⟩
      let penult : String := ⟨parts.getD (parts.length - 2) []⟩
      if exts.contains lastExt && !(isMediaExtension penult) then
        (true, "double_extension")
      else (false, "")
    else (false, "")

/-! Utility predicates from internal/utils/paths.go. -/

/-- Model of utils.IsSubtitleFile: lowered extension in the subtitle
list. -/
def IsSubtitleFile (path : String) : Bool :=
  [".srt", ".ass", ".ssa", ".vtt", ".sub", ".idx", ".pgs"].contains
    (toLowerS ⟨extL path.data⟩)

/-- Model of utils.NormalizePath(path, mappings). The Go mappings value
is a map iterated in unspecified order with a break at the first
matching cleaned prefix; it is modelled here as a list of
(apiPath, fsPath) pairs iterated in list order, which fixes one
iteration order for the unspecified Go one. -/
def NormalizePath (path : String) (mappings : List (String × String)) : String :=
  if mappings = [] then cleanS path
  else
    let normalized := cleanS path
    match mappings.find? (fun m => startsWithS normalized (cleanS m.1)) with
    | none => normalized
    | some m => joinPath m.2 (trimStartS normalized (cleanS m.1))

/-! Metadata-file glob matching, from internal/analysis/permissions.go. -/

/-- Helper for the star wildcard: k is the matcher for the rest of the
pattern; the star absorbs any run of non-separator characters before k
takes over. -/
def matchStar (k : List Char → Bool) : List Char → Bool
  | [] => k []
  | c :: cs => k (c :: cs) || (decide (c ≠ '/') && matchStar k cs)

/-- Model of filepath.Match restricted to the glob syntax actually used
by metadataPatterns: literal characters and the star wildcard, where a
star matches any run of non-separator characters. The patterns in this
repository contain no question marks, character classes or escapes, so
this agrees with Go filepath.Match on every pattern the code passes. -/
def matchGlob : List Char → List Char → Bool
  | [] => fun name => name.isEmpty
  | '*' :: ps => matchStar (matchGlob ps)
  | p :: ps => fun name =>
    match name with
    | [] => false
    | c :: cs => decide (p = c) && matchGlob ps cs

/-- Model of the metadataPatterns package variable. -/
def metadataPatterns : List String :=
  ["*-thumb.jpg", "*-thumb.png",
   "poster.jpg", "poster.png",
   "backdrop.jpg", "backdrop.png",
   "folder.jpg", "folder.png",
   "logo.png",
   "logo.svg",
   "season*-poster.jpg", "season*-poster.png",
   "banner.jpg", "landscape.jpg", "clearlogo.png",
   "*.nfo",
   "*.torrent"]

/-- Model of analysis.IsMetadataFile: any metadata pattern matches the
base name of the path. -/
def IsMetadataFile (path : String) : Bool :=
  metadataPatterns.any (fun pat => matchGlob pat.data (baseL path.data))

/-! The classification rule, from internal/analysis/rules.go. -/

/-- Model of analysis.ClassifyMedia(media, arrFile, graceHours); the nil
Go pointer becomes Option. The Go body first clamps a non-positive grace
to 0, then applies the grace window, the nil check, and the hardlink
check. now replaces the Go wall clock read inside WithinGraceWindow. -/
def ClassifyMedia (now : Int) (media : MediaFile) (arrFile : Option ArrFile)
    (graceHours : Int) : String × Bool :=
  let g := if graceHours ≤ 0 then 0 else graceHours
  if media.WithinGraceWindow now g then ("", false)
  else if arrFile.isNone then (MediaOrphan, true)
  else if media.IsHardlinked then (MediaHealthy, true)
  else (MediaAtRisk, true)

/-! The engine, from internal/analysis/engine.go. -/

/-- Model of analysis.SummaryStats; Duration stays 0 in the core. -/
structure SummaryStats where
  TotalFiles : Int := 0
  HealthyCount : Int := 0
  AtRiskCount : Int := 0
  OrphanCount : Int := 0
  SuspiciousCount : Int := 0
  PermissionErrors : Int := 0
  PermissionWarnings : Int := 0
  Duration : Int := 0
deriving DecidableEq, Repr

/-- Model of analysis.AnalysisResult. -/
structure AnalysisResult where
  ClassifiedMedia : List ClassifiedMedia := []
  SuspiciousFiles : List SuspiciousFile := []
  UnlinkedTorrents : List Torrent := []
  PermissionIssues : List PermissionIssue := []
  Summary : SummaryStats := {}
deriving DecidableEq, Repr

/-- Model of the analysis.Engine configuration record. -/
structure Engine where
  sonarrGraceHours : Int
  radarrGraceHours : Int
  qbittorrentGraceHours : Int
  suspiciousExtensions : List String
  flagArchives : Bool
  permissionsEnabled : Bool
  expectedGroupGID : Int
  allowedUIDs : List Int
  sgidPaths : List String
  skipPaths : List String
  nonstandardSeverity : String
deriving DecidableEq, Repr

/-- Model of the package-level normalizePath in engine.go:
lowercase of the cleaned path. -/
def normalizePath (p : String) : String := toLowerS (cleanS p)

/-- Model of shouldSkip(path, skipPaths): some configured skip path is a
string prefix of the path (the Go loop returns at the first hit). -/
def shouldSkip (path : String) (skipPaths : List String) : Bool :=
  skipPaths.any (fun skip => startsWithS path skip)

/-- The engine's managed-record lookup. The Go map[string]*ArrFile is
modelled as an association list where the most recent insertion is at
the head, so a find-first lookup gives Go's overwrite semantics. -/
def ArrLookup := List (String × ArrFile)

/-- Lookup in the modelled Go map: value of the most recent insertion
for the key, none when the key is absent (the Go nil pointer). -/
def lookupFind (l : ArrLookup) (k : String) : Option ArrFile :=
  match List.find? (fun p => p.1 = k) l with
  | none => none
  | some p => some p.2

/-- Model of buildArrLookup(sonarrFiles, radarrFiles): insert every
sonarr record then every radarr record keyed by the normalized path;
later insertions shadow earlier ones exactly as Go map stores do. -/
def buildArrLookup (sonarrFiles radarrFiles : List ArrFile) : ArrLookup :=
  (sonarrFiles ++ radarrFiles).foldl
    (fun m f => (normalizePath f.Path, f) :: m) []

/-- Model of (e Engine) getGraceHours(arrFile). -/
def Engine.getGraceHours (e : Engine) (arrFile : Option ArrFile) : Int :=
  match arrFile with
  | none => 0
  | some af =>
    if af.SeriesID > 0 then e.sonarrGraceHours
    else if af.MovieID > 0 then e.radarrGraceHours
    else 0

/-- Model of getReason(class, media, arrFile); the Go media and arrFile
parameters are unused by its body and are dropped here. -/
def getReason (class0 : String) : String :=
  if class0 = MediaHealthy then "Tracked by Arr and hardlinked to torrent"
  else if class0 = MediaAtRisk then "Tracked by Arr but NOT hardlinked (no torrent protection)"
  else if class0 = MediaOrphan then "Not tracked by Arr (outside grace window)"
  else "Unknown classification"

/-- Model of hasMatchingMediaFile(t, mediaLookup): some constituent
file, joined to the save path and normalized, is a key of the lookup. -/
def hasMatchingMediaFile (t : Torrent) (mediaLookup : ArrLookup) : Bool :=
  t.Files.any (fun f =>
    (lookupFind mediaLookup (normalizePath (joinPath t.SavePath f))).isSome)

/-- Render of the Go fmt %v verb on an int slice: bracketed,
space-separated (used only inside fix-hint strings). -/
def fmtIntList (l : List Int) : String :=
  "[" ++ String.intercalate " " (l.map toString) ++ "]"

/-- Model of (e Engine) isValidOwner(uid): membership in the allow-list
(the Go loop returns at the first hit). -/
def Engine.isValidOwner (e : Engine) (uid : Int) : Bool :=
  e.allowedUIDs.contains uid

/-- Model of (e Engine) shouldHaveSGID(path): some configured sgid path
is a string prefix of the path. -/
def Engine.shouldHaveSGID (e : Engine) (path : String) : Bool :=
  e.sgidPaths.any (fun sgidPath => startsWithS path sgidPath)

/-- Model of (e Engine) auditPermissions(file): nothing for metadata
artifacts, otherwise the four independent checks appended in source
order (wrong_owner, wrong_group, not_group_writable, missing_sgid). -/
def Engine.auditPermissions (e : Engine) (file : FilePermissions) :
    List PermissionIssue :=
  if IsMetadataFile file.Path then []
  else
    (if !(e.isValidOwner file.OwnerUID) then
      if file.IsDirectory && file.OwnerUID = 0 then
        [{ Path := file.Path, CurrentMode := 0, ExpectedMode := 0,
           Owner := 0, Group := 0, Issue := "wrong_owner", Severity := "warning",
           FixHint := "Directory owned by root (UID 0), expected one of: " ++
             fmtIntList e.allowedUIDs }]
      else
        [{ Path := file.Path, CurrentMode := 0, ExpectedMode := 0,
           Owner := 0, Group := 0, Issue := "wrong_owner", Severity := "error",
           FixHint := "File owned by UID " ++ toString file.OwnerUID ++
             ", expected one of: " ++ fmtIntList e.allowedUIDs }]
    else []) ++
    (if file.GroupGID ≠ e.expectedGroupGID then
      [{ Path := file.Path, CurrentMode := 0, ExpectedMode := 0,
         Owner := 0, Group := 0, Issue := "wrong_group", Severity := "error",
         FixHint := "File group is GID " ++ toString file.GroupGID ++
           ", expected " ++ toString e.expectedGroupGID }]
    else []) ++
    (if !file.GroupWritable then
      [{ Path := file.Path, CurrentMode := 0, ExpectedMode := 0,
         Owner := 0, Group := 0, Issue := "not_group_writable", Severity := "warning",
         FixHint := "Group cannot write to file" }]
    else []) ++
    (if file.IsDirectory && e.shouldHaveSGID file.Path && !file.HasSGID then
      [{ Path := file.Path, CurrentMode := 0, ExpectedMode := 0,
         Owner := 0, Group := 0, Issue := "missing_sgid", Severity := "warning",
         FixHint := "Directory missing SGID bit (new files won\x27t inherit group)" }]
    else [])

/-- One iteration of the media loop of (e Engine) Analyze: skip-path
filter, lookup, grace resolution, classification, the grace and
subtitle-orphan exclusions, the append to ClassifiedMedia with its
counters, and the suspicion check on the same file. -/
def Engine.processMedia (e : Engine) (now : Int) (arrLookup : ArrLookup)
    (result : AnalysisResult) (media : MediaFile) : AnalysisResult :=
  if shouldSkip media.Path e.skipPaths then result
  else
    let arrFile := lookupFind arrLookup (normalizePath media.Path)
    let graceHours := e.getGraceHours arrFile
    let cls := ClassifyMedia now media arrFile graceHours
    let classification := cls.1
    let shouldInclude := cls.2
    if !shouldInclude then result
    else if classification = MediaOrphan && IsSubtitleFile media.Path then result
    else
      let arrSource :=
        match arrFile with
        | some af => if af.SeriesID > 0 then "sonarr"
                     else if af.MovieID > 0 then "radarr" else ""
        | none => ""
      let knownToArr :=
        match arrFile with
        | some af => af.IsKnown
        | none => false
      let result1 : AnalysisResult :=
        { result with
          ClassifiedMedia := result.ClassifiedMedia ++
            [{ File := media, KnownToArr := knownToArr, ArrSource := arrSource,
               Classification := classification,
               Reason := getReason classification }],
          Summary :=
            { result.Summary with
              HealthyCount := result.Summary.HealthyCount +
                (if classification = MediaHealthy then 1 else 0),
              AtRiskCount := result.Summary.AtRiskCount +
                (if classification = MediaAtRisk then 1 else 0),
              OrphanCount := result.Summary.OrphanCount +
                (if classification = MediaOrphan then 1 else 0),
              TotalFiles := result.Summary.TotalFiles + 1 } }
      let sus := IsSuspicious media.Path e.suspiciousExtensions e.flagArchives
      if sus.1 then
        { result1 with
          SuspiciousFiles := result1.SuspiciousFiles ++
            [{ Path := media.Path, Reason := sus.2 }],
          Summary := { result1.Summary with
            SuspiciousCount := result1.Summary.SuspiciousCount + 1 } }
      else result1

/-- One iteration of the torrent loop of Analyze: a completed torrent
outside the download-client grace window with no matching lookup entry
is appended to UnlinkedTorrents. -/
def Engine.processTorrent (e : Engine) (now : Int) (arrLookup : ArrLookup)
    (result : AnalysisResult) (t : Torrent) : AnalysisResult :=
  if t.State = StateCompleted && !(t.WithinGraceWindow now e.qbittorrentGraceHours) then
    if !(hasMatchingMediaFile t arrLookup) then
      { result with UnlinkedTorrents := result.UnlinkedTorrents ++ [t] }
    else result
  else result

/-- One iteration of the permission loop of Analyze: skip-path filter,
audit, append of the issues, and the severity counters. -/
def Engine.processPermission (e : Engine) (result : AnalysisResult)
    (perm : FilePermissions) : AnalysisResult :=
  if shouldSkip perm.Path e.skipPaths then result
  else
    let issues := e.auditPermissions perm
    { result with
      PermissionIssues := result.PermissionIssues ++ issues,
      Summary :=
        { result.Summary with
          PermissionErrors := result.Summary.PermissionErrors +
            ((issues.filter (fun i => i.Severity = "error")).length : Int),
          PermissionWarnings := result.Summary.PermissionWarnings +
            ((issues.filter (fun i => i.Severity ≠ "error")).length : Int) } }

/-- Model of (e Engine) Analyze(mediaFiles, sonarrFiles, radarrFiles,
torrents, permissions): build the merged lookup, run the media loop,
the torrent loop, and (when enabled) the permission loop, threading one
result accumulator exactly as the Go body does. now replaces the wall
clock read by the grace-window checks. -/
def Engine.Analyze (e : Engine) (now : Int)
    (mediaFiles : List MediaFile)
    (sonarrFiles radarrFiles : List ArrFile)
    (torrents : List Torrent)
    (permissions : List FilePermissions) : AnalysisResult :=
  let arrLookup := buildArrLookup sonarrFiles radarrFiles
  let r1 := mediaFiles.foldl (e.processMedia now arrLookup) {}
  let r2 := torrents.foldl (e.processTorrent now arrLookup) r1
  if e.permissionsEnabled then permissions.foldl e.processPermission r2
  else r2

/-- Derived predicate of the media loop of Analyze: the loop appends
this file to the classified list and reaches the suspicion check.
Mirrors the loop's control flow: not under a configured skip path,
included by ClassifyMedia, and not an orphan-classified subtitle. -/
def Engine.mediaIncluded (e : Engine) (now : Int) (arrLookup : ArrLookup)
    (media : MediaFile) : Bool :=
  if shouldSkip media.Path e.skipPaths then false
  else
    let arrFile := lookupFind arrLookup (normalizePath media.Path)
    let cls := ClassifyMedia now media arrFile (e.getGraceHours arrFile)
    if !cls.2 then false
    else if cls.1 = MediaOrphan && IsSubtitleFile media.Path then false
    else true

/-- The summary-counter invariant of an analysis result: the total-file
counter equals the sum of the three per-classification counters and the
length of the classified list. -/
def resultCountsOK (r : AnalysisResult) : Prop :=
  r.Summary.TotalFiles =
      r.Summary.HealthyCount + r.Summary.AtRiskCount + r.Summary.OrphanCount ∧
  r.Summary.TotalFiles = (r.ClassifiedMedia.length : Int)

/-- Spec-side variant of the remap function, written from the spec's
words for comparison with NormalizePath: "finding the longest configured
prefix match and substituting it. If no mapping matches, the path passes
through unchanged." It substitutes a matching entry whose cleaned
configured prefix has maximal length. -/
def NormalizePathLongest (path : String) (mappings : List (String × String)) : String :=
  let normalized := cleanS path
  let pick := (mappings.filter (fun m => startsWithS normalized (cleanS m.1))).foldl
    (fun best m =>
      match best with
      | none => some m
      | some b => if (cleanS m.1).length > (cleanS b.1).length then some m else some b)
    none
  match pick with
  | none => normalized
  | some m => joinPath m.2 (trimStartS normalized (cleanS m.1))

/-! Concrete inputs used by counterexamples and witnesses. -/

/-- A concrete engine configuration: 48h manager grace, 24h
download-client grace, default suspicious extensions, archives not
flagged, permission audit enabled with group 1000 and owners 1001/1002. -/
def engEx : Engine :=
  { sonarrGraceHours := 48, radarrGraceHours := 48, qbittorrentGraceHours := 24,
    suspiciousExtensions := [], flagArchives := false, permissionsEnabled := true,
    expectedGroupGID := 1000, allowedUIDs := [1001, 1002], sgidPaths := ["/media"],
    skipPaths := ["/skip"], nonstandardSeverity := "info" }

/-- One day of nanosecond ticks. -/
def dayNs : Int := 24 * hourNs

/-- A concrete media file: ten-day-old hardlinked episode. -/
def mfEx : MediaFile :=
  { Path := "/media/tv/Show/S01E01.mkv", Size := 1, ModTime := 0,
    HardlinkCount := 2, IsHardlinked := true, Source := "library" }

/-- A concrete managed record claimed by the TV manager. -/
def afEx : ArrFile :=
  { Path := "/media/tv/Show/S01E01.mkv", SeriesID := 5, EpisodeID := 1,
    MovieID := 0, Monitored := true, ImportDate := 0 }

/-- A concrete torrent with an unset (zero) completion timestamp. -/
def tZeroEx : Torrent :=
  { Hash := "h0", Name := "zero", SavePath := "/downloads", State := "completed",
    CompletedOn := 0, Files := ["a.mkv"] }

/-- A concrete completed torrent, completed at tick 1 (far outside the
24h grace at the reference instant dayNs * 10). -/
def tEx : Torrent :=
  { Hash := "h1", Name := "done", SavePath := "/downloads", State := "completed",
    CompletedOn := 1, Files := ["file.mkv"] }

/-- The on-disk, hardlinked constituent file of tEx; it carries no
managed record. -/
def mfTorEx : MediaFile :=
  { Path := "/downloads/file.mkv", Size := 1, ModTime := 0,
    HardlinkCount := 2, IsHardlinked := true, Source := "torrent" }

/-- A media file with a suspicious extension whose modification time is
inside the TV manager grace window at the reference instant dayNs. -/
def mfSusEx : MediaFile :=
  { Path := "/media/tv/virus.exe", Size := 1, ModTime := dayNs,
    HardlinkCount := 1, IsHardlinked := false, Source := "library" }

/-- The managed record for mfSusEx (so the 48h TV grace applies). -/
def afSusEx : ArrFile :=
  { Path := "/media/tv/virus.exe", SeriesID := 9, EpisodeID := 1,
    MovieID := 0, Monitored := true, ImportDate := 0 }

/-- A root-owned directory permission record under /media. -/
def permDirEx : FilePermissions :=
  { Path := "/media/tv", Mode := 0o2775, OwnerUID := 0, GroupGID := 1000,
    IsDirectory := true }

/-! Theorems. -/

/-- A non-positive grace hours value disables the media grace window. -/
theorem mediaGrace_nonpos (m : MediaFile) (now hours : Int) (h : hours ≤ 0) :
    m.WithinGraceWindow now hours = false := by
  simp [MediaFile.WithinGraceWindow, h]

/-- A non-positive grace hours value disables the torrent grace window. -/
theorem torrentGrace_nonpos (t : Torrent) (now hours : Int) (h : hours ≤ 0) :
    t.WithinGraceWindow now hours = false := by
  simp [Torrent.WithinGraceWindow, h]

/-- The clamp of a non-positive grace to zero inside ClassifyMedia does
not change the grace-window verdict. -/
theorem mediaGrace_clamp (m : MediaFile) (now hours : Int) :
    m.WithinGraceWindow now (if hours ≤ 0 then 0 else hours) =
      m.WithinGraceWindow now hours := by
  by_cases h : hours ≤ 0
  · simp [h, mediaGrace_nonpos, le_refl]
  · simp [h]

/-- C1. ClassifyMedia returns exactly the four-case mapping of the spec:
within grace gives (no classification, exclude); otherwise a missing
managed record gives (orphan, include); otherwise a hardlinked file
gives (healthy, include); otherwise (at_risk, include). -/
theorem C1_classify_four_cases (now : Int) (media : MediaFile)
    (arrFile : Option ArrFile) (graceHours : Int) :
    ClassifyMedia now media arrFile graceHours =
      if media.WithinGraceWindow now graceHours then ("", false)
      else if arrFile.isNone then (MediaOrphan, true)
      else if media.IsHardlinked then (MediaHealthy, true)
      else (MediaAtRisk, true) := by
  unfold ClassifyMedia
  simp only [mediaGrace_clamp]

/-- C5 counterexample. The claim asserts the zero-completion grace test
is true for every grace-hours value including non-positive ones; with
grace hours 0 the code returns false for a zero completion time. -/
theorem C5_counterexample :
    tZeroEx.CompletedOn = 0 ∧ tZeroEx.WithinGraceWindow 1000 0 = false := by
  decide

/-- C5 amended. For a torrent with zero-valued completion time the
grace-window test returns true for every POSITIVE grace-hours value,
independent of the reference instant; for a non-positive grace-hours
value the non-positive-grace rule takes priority and it returns false. -/
theorem C5_zero_completion (now hours : Int) (t : Torrent)
    (h : t.CompletedOn = 0) :
    t.WithinGraceWindow now hours = decide (0 < hours) := by
  unfold Torrent.WithinGraceWindow
  rw [h]
  by_cases hp : hours ≤ 0
  · simp only [hp, if_true, if_pos]
    have : ¬ (0 < hours) := by omega
    simp [this]
  · rw [if_neg hp, if_pos rfl]
    have : 0 < hours := by omega
    simp [this]

/-- C5 witness: the amended theorem at the concrete zero-completion
torrent with grace 7 and grace -3. -/
theorem C5_witness :
    tZeroEx.WithinGraceWindow 1000 7 = decide ((0:Int) < 7) ∧
    tZeroEx.WithinGraceWindow 1000 (-3) = decide ((0:Int) < -3) :=
  ⟨C5_zero_completion 1000 7 tZeroEx rfl, C5_zero_completion 1000 (-3) tZeroEx rfl⟩

/-- C6. For every grace-hours value at most zero, the grace-window test
returns false for every reference timestamp, for media-file modification
times and torrent completion times alike. -/
theorem C6_nonpositive_grace (now hours : Int) (m : MediaFile) (t : Torrent)
    (h : hours ≤ 0) :
    m.WithinGraceWindow now hours = false ∧ t.WithinGraceWindow now hours = false :=
  ⟨mediaGrace_nonpos m now hours h, torrentGrace_nonpos t now hours h⟩

/-- C6 witness: the theorem at the concrete media file and torrent with
grace 0. -/
theorem C6_witness :
    mfEx.WithinGraceWindow 5 0 = false ∧ tZeroEx.WithinGraceWindow 5 0 = false :=
  C6_nonpositive_grace 5 0 mfEx tZeroEx (by decide)

/-- The media-loop step never touches the unlinked-torrent list. -/
theorem processMedia_unlinked (e : Engine) (now : Int) (l : ArrLookup)
    (r : AnalysisResult) (m : MediaFile) :
    (e.processMedia now l r m).UnlinkedTorrents = r.UnlinkedTorrents := by
  unfold Engine.processMedia
  dsimp only
  split_ifs <;> rfl

/-- The whole media loop never touches the unlinked-torrent list. -/
theorem foldMedia_unlinked (e : Engine) (now : Int) (l : ArrLookup) :
    ∀ (mf : List MediaFile) (r : AnalysisResult),
    (mf.foldl (e.processMedia now l) r).UnlinkedTorrents = r.UnlinkedTorrents := by
  intro mf
  induction mf with
  | nil => intro r; rfl
  | cons m ms ih =>
    intro r
    rw [List.foldl_cons, ih, processMedia_unlinked]

/-- The permission-loop step never touches the unlinked-torrent list. -/
theorem processPermission_unlinked (e : Engine) (r : AnalysisResult)
    (p : FilePermissions) :
    (e.processPermission r p).UnlinkedTorrents = r.UnlinkedTorrents := by
  unfold Engine.processPermission
  split_ifs <;> rfl

/-- The whole permission loop never touches the unlinked-torrent list. -/
theorem foldPermission_unlinked (e : Engine) :
    ∀ (ps : List FilePermissions) (r : AnalysisResult),
    (ps.foldl e.processPermission r).UnlinkedTorrents = r.UnlinkedTorrents := by
  intro ps
  induction ps with
  | nil => intro r; rfl
  | cons p ps ih =>
    intro r
    rw [List.foldl_cons, ih, processPermission_unlinked]

/-- The torrent loop appends exactly the completed, outside-grace
torrents with no lookup match, in input order. -/
theorem foldTorrent_unlinked (e : Engine) (now : Int) (l : ArrLookup) :
    ∀ (ts : List Torrent) (r : AnalysisResult),
    (ts.foldl (e.processTorrent now l) r).UnlinkedTorrents =
      r.UnlinkedTorrents ++ ts.filter (fun t =>
        t.State = StateCompleted &&
        !(t.WithinGraceWindow now e.qbittorrentGraceHours) &&
        !(hasMatchingMediaFile t l)) := by
  intro ts
  induction ts with
  | nil => intro r; simp
  | cons t ts ih =>
    intro r
    rw [List.foldl_cons, ih, List.filter_cons]
    unfold Engine.processTorrent
    by_cases h1 : t.State = StateCompleted
    · by_cases h2 : t.WithinGraceWindow now e.qbittorrentGraceHours
      · simp [h1, h2]
      · by_cases h3 : hasMatchingMediaFile t l
        · simp [h1, h2, h3]
        · simp [h1, h2, h3]
    · simp [h1]

/-- C2 amended. A torrent is in UnlinkedTorrents exactly when it is
completed, outside the download-client grace window, and no constituent
file joined with its save path is present in the managed-record lookup;
hardlink state of on-disk files is not consulted. -/
theorem C2_unlinked_filter (e : Engine) (now : Int)
    (mediaFiles : List MediaFile) (sonarrFiles radarrFiles : List ArrFile)
    (torrents : List Torrent) (permissions : List FilePermissions) :
    (e.Analyze now mediaFiles sonarrFiles radarrFiles torrents permissions).UnlinkedTorrents =
      torrents.filter (fun t =>
        t.State = StateCompleted &&
        !(t.WithinGraceWindow now e.qbittorrentGraceHours) &&
        !(hasMatchingMediaFile t (buildArrLookup sonarrFiles radarrFiles))) := by
  unfold Engine.Analyze
  dsimp only
  split_ifs with hp
  · rw [foldPermission_unlinked, foldTorrent_unlinked, foldMedia_unlinked]
    rfl
  · rw [foldTorrent_unlinked, foldMedia_unlinked]
    rfl

/-- C2 counterexample. tEx is completed, outside grace, and its only
constituent file is on disk and hardlinked; the claim says such a
torrent is excluded from UnlinkedTorrents, but the engine includes it
because the unlinked check consults only the managed-record lookup. -/
theorem C2_counterexample :
    tEx.State = StateCompleted ∧
    tEx.WithinGraceWindow (10 * dayNs) engEx.qbittorrentGraceHours = false ∧
    tEx.Files = ["file.mkv"] ∧
    joinPath tEx.SavePath "file.mkv" = mfTorEx.Path ∧
    mfTorEx.IsHardlinked = true ∧
    (engEx.Analyze (10 * dayNs) [mfTorEx] [] [] [tEx] []).UnlinkedTorrents = [tEx] := by
  decide

/-- The media-loop step appends a suspicious-file entry exactly when the
file is included (reaches the check) and IsSuspicious fires. -/
theorem processMedia_suspicious (e : Engine) (now : Int) (l : ArrLookup)
    (r : AnalysisResult) (m : MediaFile) :
    (e.processMedia now l r m).SuspiciousFiles =
      r.SuspiciousFiles ++
        (if e.mediaIncluded now l m &&
            (IsSuspicious m.Path e.suspiciousExtensions e.flagArchives).1 then
          [{ Path := m.Path,
             Reason := (IsSuspicious m.Path e.suspiciousExtensions e.flagArchives).2 }]
        else []) := by
  unfold Engine.processMedia Engine.mediaIncluded
  dsimp only
  split_ifs <;> simp_all

/-- The media-loop step keeps the suspicious counter equal to the
suspicious-list length. -/
theorem processMedia_suspiciousCount (e : Engine) (now : Int) (l : ArrLookup)
    (r : AnalysisResult) (m : MediaFile)
    (h : r.Summary.SuspiciousCount = (r.SuspiciousFiles.length : Int)) :
    (e.processMedia now l r m).Summary.SuspiciousCount =
      ((e.processMedia now l r m).SuspiciousFiles.length : Int) := by
  unfold Engine.processMedia
  dsimp only
  split_ifs <;> simp_all

/-- The whole media loop accumulates exactly the suspicious entries of
the included files, in input order. -/
theorem foldMedia_suspicious (e : Engine) (now : Int) (l : ArrLookup) :
    ∀ (mf : List MediaFile) (r : AnalysisResult),
    (mf.foldl (e.processMedia now l) r).SuspiciousFiles =
      r.SuspiciousFiles ++
        (mf.filter (fun m => e.mediaIncluded now l m &&
            (IsSuspicious m.Path e.suspiciousExtensions e.flagArchives).1)).map
          (fun m => { Path := m.Path,
                      Reason := (IsSuspicious m.Path e.suspiciousExtensions e.flagArchives).2 }) := by
  intro mf
  induction mf with
  | nil => intro r; simp
  | cons m ms ih =>
    intro r
    rw [List.foldl_cons, ih, processMedia_suspicious, List.filter_cons]
    by_cases h : (e.mediaIncluded now l m &&
        (IsSuspicious m.Path e.suspiciousExtensions e.flagArchives).1 : Bool)
    · simp [h]
    · simp [h]

/-- The whole media loop keeps the suspicious counter equal to the
suspicious-list length. -/
theorem foldMedia_suspiciousCount (e : Engine) (now : Int) (l : ArrLookup) :
    ∀ (mf : List MediaFile) (r : AnalysisResult),
    r.Summary.SuspiciousCount = (r.SuspiciousFiles.length : Int) →
    (mf.foldl (e.processMedia now l) r).Summary.SuspiciousCount =
      ((mf.foldl (e.processMedia now l) r).SuspiciousFiles.length : Int) := by
  intro mf
  induction mf with
  | nil => intro r h; exact h
  | cons m ms ih =>
    intro r h
    rw [List.foldl_cons]
    exact ih _ (processMedia_suspiciousCount e now l r m h)

/-- The torrent-loop step changes neither the suspicious list nor the
suspicious counter. -/
theorem processTorrent_suspicious (e : Engine) (now : Int) (l : ArrLookup)
    (r : AnalysisResult) (t : Torrent) :
    (e.processTorrent now l r t).SuspiciousFiles = r.SuspiciousFiles ∧
    (e.processTorrent now l r t).Summary.SuspiciousCount =
      r.Summary.SuspiciousCount := by
  unfold Engine.processTorrent
  split_ifs <;> exact ⟨rfl, rfl⟩

/-- The torrent loop changes neither the suspicious list nor the
suspicious counter. -/
theorem foldTorrent_suspicious (e : Engine) (now : Int) (l : ArrLookup) :
    ∀ (ts : List Torrent) (r : AnalysisResult),
    (ts.foldl (e.processTorrent now l) r).SuspiciousFiles = r.SuspiciousFiles ∧
    (ts.foldl (e.processTorrent now l) r).Summary.SuspiciousCount =
      r.Summary.SuspiciousCount := by
  intro ts
  induction ts with
  | nil => intro r; exact ⟨rfl, rfl⟩
  | cons t ts ih =>
    intro r
    rw [List.foldl_cons]
    rcases processTorrent_suspicious e now l r t with ⟨h1, h2⟩
    rcases ih (e.processTorrent now l r t) with ⟨g1, g2⟩
    exact ⟨g1.trans h1, g2.trans h2⟩

/-- The permission-loop step changes neither the suspicious list nor the
suspicious counter. -/
theorem processPermission_suspicious (e : Engine) (r : AnalysisResult)
    (p : FilePermissions) :
    (e.processPermission r p).SuspiciousFiles = r.SuspiciousFiles ∧
    (e.processPermission r p).Summary.SuspiciousCount =
      r.Summary.SuspiciousCount := by
  unfold Engine.processPermission
  split_ifs <;> exact ⟨rfl, rfl⟩

/-- The permission loop changes neither the suspicious list nor the
suspicious counter. -/
theorem foldPermission_suspicious (e : Engine) :
    ∀ (ps : List FilePermissions) (r : AnalysisResult),
    (ps.foldl e.processPermission r).SuspiciousFiles = r.SuspiciousFiles ∧
    (ps.foldl e.processPermission r).Summary.SuspiciousCount =
      r.Summary.SuspiciousCount := by
  intro ps
  induction ps with
  | nil => intro r; exact ⟨rfl, rfl⟩
  | cons p ps ih =>
    intro r
    rw [List.foldl_cons]
    rcases processPermission_suspicious e r p with ⟨h1, h2⟩
    rcases ih (e.processPermission r p) with ⟨g1, g2⟩
    exact ⟨g1.trans h1, g2.trans h2⟩

/-- C3 amended. The suspicious-file check runs exactly on the media
files the loop includes in the classified list: the suspicious list is
the in-order suspicion matches among included files (and the counter is
its length), so a file excluded by the grace window, a skip path, or the
subtitle-orphan rule is never checked. -/
theorem C3_suspicious_included_only (e : Engine) (now : Int)
    (mediaFiles : List MediaFile) (sonarrFiles radarrFiles : List ArrFile)
    (torrents : List Torrent) (permissions : List FilePermissions) :
    (e.Analyze now mediaFiles sonarrFiles radarrFiles torrents permissions).SuspiciousFiles =
      (mediaFiles.filter (fun m =>
          e.mediaIncluded now (buildArrLookup sonarrFiles radarrFiles) m &&
          (IsSuspicious m.Path e.suspiciousExtensions e.flagArchives).1)).map
        (fun m => { Path := m.Path,
                    Reason := (IsSuspicious m.Path e.suspiciousExtensions e.flagArchives).2 }) ∧
    (e.Analyze now mediaFiles sonarrFiles radarrFiles torrents permissions).Summary.SuspiciousCount =
      ((e.Analyze now mediaFiles sonarrFiles radarrFiles torrents permissions).SuspiciousFiles.length : Int) := by
  unfold Engine.Analyze
  dsimp only
  split_ifs with hp
  · rcases foldPermission_suspicious e permissions
      (torrents.foldl (e.processTorrent now (buildArrLookup sonarrFiles radarrFiles))
        (mediaFiles.foldl (e.processMedia now (buildArrLookup sonarrFiles radarrFiles)) {})) with ⟨p1, p2⟩
    rcases foldTorrent_suspicious e now (buildArrLookup sonarrFiles radarrFiles) torrents
      (mediaFiles.foldl (e.processMedia now (buildArrLookup sonarrFiles radarrFiles)) {}) with ⟨t1, t2⟩
    constructor
    · rw [p1, t1, foldMedia_suspicious]
      rfl
    · rw [p1, p2, t1, t2, foldMedia_suspiciousCount]
      rfl
  · rcases foldTorrent_suspicious e now (buildArrLookup sonarrFiles radarrFiles) torrents
      (mediaFiles.foldl (e.processMedia now (buildArrLookup sonarrFiles radarrFiles)) {}) with ⟨t1, t2⟩
    constructor
    · rw [t1, foldMedia_suspicious]
      rfl
    · rw [t1, t2, foldMedia_suspiciousCount]
      rfl

/-- C3 counterexample. mfSusEx has a suspicious extension, is not under
a skip path, and is within its manager grace window; the claim says it
still appears in SuspiciousFiles, but the engine skips the suspicion
check for grace-excluded files. -/
theorem C3_counterexample :
    shouldSkip mfSusEx.Path engEx.skipPaths = false ∧
    (IsSuspicious mfSusEx.Path engEx.suspiciousExtensions engEx.flagArchives).1 = true ∧
    mfSusEx.WithinGraceWindow dayNs engEx.sonarrGraceHours = true ∧
    (engEx.Analyze dayNs [mfSusEx] [afSusEx] [] [] []).SuspiciousFiles = [] ∧
    (engEx.Analyze dayNs [mfSusEx] [afSusEx] [] [] []).Summary.SuspiciousCount = 0 := by
  decide

/-- An included classification is one of orphan, healthy, at_risk. -/
theorem classify_included_cases (now : Int) (media : MediaFile)
    (arrFile : Option ArrFile) (g : Int)
    (h : (ClassifyMedia now media arrFile g).2 = true) :
    (ClassifyMedia now media arrFile g).1 = MediaOrphan ∨
    (ClassifyMedia now media arrFile g).1 = MediaHealthy ∨
    (ClassifyMedia now media arrFile g).1 = MediaAtRisk := by
  unfold ClassifyMedia at *
  dsimp only at *
  split_ifs at h ⊢ <;> simp_all

/-- The media-loop step preserves the summary-counter invariant. -/
theorem processMedia_countsOK (e : Engine) (now : Int) (l : ArrLookup)
    (r : AnalysisResult) (m : MediaFile) (h : resultCountsOK r) :
    resultCountsOK (e.processMedia now l r m) := by
  obtain ⟨h1, h2⟩ := h
  unfold Engine.processMedia
  dsimp only
  by_cases hskip : shouldSkip m.Path e.skipPaths = true
  · rw [if_pos hskip]
    exact ⟨h1, h2⟩
  · rw [if_neg hskip]
    have hcases := classify_included_cases now m (lookupFind l (normalizePath m.Path))
      (e.getGraceHours (lookupFind l (normalizePath m.Path)))
    generalize hcg : ClassifyMedia now m (lookupFind l (normalizePath m.Path))
      (e.getGraceHours (lookupFind l (normalizePath m.Path))) = cls at hcases ⊢
    obtain ⟨c, b⟩ := cls
    by_cases hb : b = true
    · subst hb
      have hcs := hcases rfl
      dsimp only at hcs ⊢
      rw [if_neg (by simp)]
      rcases hcs with hc | hc | hc <;> subst hc
      · by_cases hsub : IsSubtitleFile m.Path = true
        · rw [if_pos (by simp [hsub])]
          exact ⟨h1, h2⟩
        · rw [if_neg (by simp [hsub])]
          by_cases hsus : (IsSuspicious m.Path e.suspiciousExtensions e.flagArchives).1 = true
          · rw [if_pos hsus]
            refine ⟨?_, ?_⟩ <;>
              simp [resultCountsOK, MediaOrphan, MediaHealthy, MediaAtRisk] <;> omega
          · rw [if_neg hsus]
            refine ⟨?_, ?_⟩ <;>
              simp [resultCountsOK, MediaOrphan, MediaHealthy, MediaAtRisk] <;> omega
      · rw [if_neg (by simp [MediaHealthy, MediaOrphan])]
        by_cases hsus : (IsSuspicious m.Path e.suspiciousExtensions e.flagArchives).1 = true
        · rw [if_pos hsus]
          refine ⟨?_, ?_⟩ <;>
            simp [resultCountsOK, MediaOrphan, MediaHealthy, MediaAtRisk] <;> omega
        · rw [if_neg hsus]
          refine ⟨?_, ?_⟩ <;>
            simp [resultCountsOK, MediaOrphan, MediaHealthy, MediaAtRisk] <;> omega
      · rw [if_neg (by simp [MediaAtRisk, MediaOrphan])]
        by_cases hsus : (IsSuspicious m.Path e.suspiciousExtensions e.flagArchives).1 = true
        · rw [if_pos hsus]
          refine ⟨?_, ?_⟩ <;>
            simp [resultCountsOK, MediaOrphan, MediaHealthy, MediaAtRisk] <;> omega
        · rw [if_neg hsus]
          refine ⟨?_, ?_⟩ <;>
            simp [resultCountsOK, MediaOrphan, MediaHealthy, MediaAtRisk] <;> omega
    · have hb2 : b = false := by
        revert hb
        cases b <;> simp
      subst hb2
      rw [if_pos (by simp)]
      exact ⟨h1, h2⟩

/-- The whole media loop preserves the summary-counter invariant. -/
theorem foldMedia_countsOK (e : Engine) (now : Int) (l : ArrLookup) :
    ∀ (mf : List MediaFile) (r : AnalysisResult),
    resultCountsOK r → resultCountsOK (mf.foldl (e.processMedia now l) r) := by
  intro mf
  induction mf with
  | nil => intro r h; exact h
  | cons m ms ih =>
    intro r h
    rw [List.foldl_cons]
    exact ih _ (processMedia_countsOK e now l r m h)

/-- The torrent-loop step preserves the summary-counter invariant. -/
theorem processTorrent_countsOK (e : Engine) (now : Int) (l : ArrLookup)
    (r : AnalysisResult) (t : Torrent) (h : resultCountsOK r) :
    resultCountsOK (e.processTorrent now l r t) := by
  unfold Engine.processTorrent
  split_ifs <;> exact h

/-- The permission-loop step preserves the summary-counter invariant. -/
theorem processPermission_countsOK (e : Engine) (r : AnalysisResult)
    (p : FilePermissions) (h : resultCountsOK r) :
    resultCountsOK (e.processPermission r p) := by
  obtain ⟨h1, h2⟩ := h
  unfold Engine.processPermission
  split_ifs
  · exact ⟨h1, h2⟩
  · exact ⟨h1, h2⟩

/-- The torrent loop preserves the summary-counter invariant. -/
theorem foldTorrent_countsOK (e : Engine) (now : Int) (l : ArrLookup) :
    ∀ (ts : List Torrent) (r : AnalysisResult),
    resultCountsOK r → resultCountsOK (ts.foldl (e.processTorrent now l) r) := by
  intro ts
  induction ts with
  | nil => intro r h; exact h
  | cons t ts ih =>
    intro r h
    rw [List.foldl_cons]
    exact ih _ (processTorrent_countsOK e now l r t h)

/-- The permission loop preserves the summary-counter invariant. -/
theorem foldPermission_countsOK (e : Engine) :
    ∀ (ps : List FilePermissions) (r : AnalysisResult),
    resultCountsOK r → resultCountsOK (ps.foldl e.processPermission r) := by
  intro ps
  induction ps with
  | nil => intro r h; exact h
  | cons p ps ih =>
    intro r h
    rw [List.foldl_cons]
    exact ih _ (processPermission_countsOK e r p h)

/-- C10. In every result of Analyze, TotalFiles equals the sum of the
healthy, at-risk and orphan counters and equals the length of the
classified-media list; excluded files are counted nowhere. -/
theorem C10_summary_counts (e : Engine) (now : Int)
    (mediaFiles : List MediaFile) (sonarrFiles radarrFiles : List ArrFile)
    (torrents : List Torrent) (permissions : List FilePermissions) :
    (e.Analyze now mediaFiles sonarrFiles radarrFiles torrents permissions).Summary.TotalFiles =
      (e.Analyze now mediaFiles sonarrFiles radarrFiles torrents permissions).Summary.HealthyCount +
      (e.Analyze now mediaFiles sonarrFiles radarrFiles torrents permissions).Summary.AtRiskCount +
      (e.Analyze now mediaFiles sonarrFiles radarrFiles torrents permissions).Summary.OrphanCount ∧
    (e.Analyze now mediaFiles sonarrFiles radarrFiles torrents permissions).Summary.TotalFiles =
      ((e.Analyze now mediaFiles sonarrFiles radarrFiles torrents permissions).ClassifiedMedia.length : Int) := by
  have hstart : resultCountsOK ({} : AnalysisResult) := ⟨rfl, rfl⟩
  have hmedia := foldMedia_countsOK e now (buildArrLookup sonarrFiles radarrFiles)
    mediaFiles {} hstart
  have htor := foldTorrent_countsOK e now (buildArrLookup sonarrFiles radarrFiles)
    torrents _ hmedia
  have hperm := foldPermission_countsOK e permissions _ htor
  unfold Engine.Analyze
  dsimp only
  split_ifs with hp
  · exact hperm
  · exact htor

/-- C9. Running Analyze twice at the same logical now over the same
immutable input collections gives componentwise identical results; the
engine configuration is read-only and the embedding carries no mutable
state, so the two runs are one pure function applied twice. -/
theorem C9_analyze_idempotent (e : Engine) (now : Int)
    (mediaFiles : List MediaFile) (sonarrFiles radarrFiles : List ArrFile)
    (torrents : List Torrent) (permissions : List FilePermissions) :
    (e.Analyze now mediaFiles sonarrFiles radarrFiles torrents permissions).ClassifiedMedia =
      (e.Analyze now mediaFiles sonarrFiles radarrFiles torrents permissions).ClassifiedMedia ∧
    (e.Analyze now mediaFiles sonarrFiles radarrFiles torrents permissions).SuspiciousFiles =
      (e.Analyze now mediaFiles sonarrFiles radarrFiles torrents permissions).SuspiciousFiles ∧
    (e.Analyze now mediaFiles sonarrFiles radarrFiles torrents permissions).UnlinkedTorrents =
      (e.Analyze now mediaFiles sonarrFiles radarrFiles torrents permissions).UnlinkedTorrents ∧
    (e.Analyze now mediaFiles sonarrFiles radarrFiles torrents permissions).PermissionIssues =
      (e.Analyze now mediaFiles sonarrFiles radarrFiles torrents permissions).PermissionIssues ∧
    (e.Analyze now mediaFiles sonarrFiles radarrFiles torrents permissions).Summary =
      (e.Analyze now mediaFiles sonarrFiles radarrFiles torrents permissions).Summary ∧
    e.Analyze now mediaFiles sonarrFiles radarrFiles torrents permissions =
      e.Analyze now mediaFiles sonarrFiles radarrFiles torrents permissions :=
  ⟨rfl, rfl, rfl, rfl, rfl, rfl⟩

/-- C8. For a record outside the metadata glob set whose owner is not in
the allow-list, the audit emits exactly one wrong_owner issue, of
severity warning for a directory owned by UID 0 and severity error
otherwise (including a plain file owned by UID 0). -/
theorem C8_wrong_owner (e : Engine) (file : FilePermissions)
    (hm : IsMetadataFile file.Path = false)
    (ho : e.isValidOwner file.OwnerUID = false) :
    ((e.auditPermissions file).filter (fun i => i.Issue = "wrong_owner")).map
        (fun i => i.Severity) =
      [if file.IsDirectory && file.OwnerUID = 0 then "warning" else "error"] := by
  unfold Engine.auditPermissions
  rw [if_neg (by simp [hm])]
  by_cases hd : (file.IsDirectory && file.OwnerUID = 0 : Bool) = true
  · rw [if_pos (by simp [ho]), if_pos hd, if_pos hd]
    split_ifs <;> simp_all
  · rw [if_pos (by simp [ho]), if_neg hd, if_neg hd]
    split_ifs <;> simp_all

/-- C8 witness: the theorem at the concrete engine and the root-owned
directory record permDirEx. -/
theorem C8_witness :
    ((engEx.auditPermissions permDirEx).filter (fun i => i.Issue = "wrong_owner")).map
        (fun i => i.Severity) =
      [if permDirEx.IsDirectory && permDirEx.OwnerUID = 0 then "warning" else "error"] :=
  C8_wrong_owner engEx permDirEx (by decide) (by decide)

/-- C7 counterexample. With a mapping table holding a short prefix before
a longer one, the code substitutes the first matching prefix in
iteration order while the spec's longest-prefix rule picks the other,
and the two outputs differ. -/
theorem C7_counterexample :
    NormalizePath "/data/tv/x" [("/data", "/a"), ("/data/tv", "/b")] = "/a/tv/x" ∧
    NormalizePathLongest "/data/tv/x" [("/data", "/a"), ("/data/tv", "/b")] = "/b/x" ∧
    startsWithS (cleanS "/data/tv/x") (cleanS "/data") = true ∧
    startsWithS (cleanS "/data/tv/x") (cleanS "/data/tv") = true ∧
    ("/a/tv/x" : String) ≠ "/b/x" := by
  decide

/-- C7 amended. The remap substitutes the FIRST configured prefix in the
modelled iteration order that matches the cleaned path (Go map order is
unspecified, so the longest match is not guaranteed); a path matched by
no configured prefix passes through unchanged up to canonical cleaning. -/
theorem C7_remap_first_match (path : String) (mappings : List (String × String)) :
    (mappings.find? (fun m => startsWithS (cleanS path) (cleanS m.1)) = none →
      NormalizePath path mappings = cleanS path) ∧
    (∀ m0, mappings.find? (fun m => startsWithS (cleanS path) (cleanS m.1)) = some m0 →
      NormalizePath path mappings =
        joinPath m0.2 (trimStartS (cleanS path) (cleanS m0.1))) := by
  constructor
  · intro hnone
    unfold NormalizePath
    dsimp only
    split_ifs with hemp
    · rfl
    · rw [hnone]
  · intro m0 hsome
    unfold NormalizePath
    dsimp only
    split_ifs with hemp
    · rw [hemp] at hsome
      simp at hsome
    · rw [hsome]

/-- C7 witness: the amended theorem's no-match case at a concrete path
and table, and its match case at the C7 table. -/
theorem C7_witness :
    NormalizePath "/nomatch/x" [("/data", "/a")] = cleanS "/nomatch/x" ∧
    NormalizePath "/data/tv/x" [("/data", "/a"), ("/data/tv", "/b")] =
      joinPath "/a" (trimStartS (cleanS "/data/tv/x") (cleanS "/data")) :=
  ⟨(C7_remap_first_match "/nomatch/x" [("/data", "/a")]).1 (by decide),
   (C7_remap_first_match "/data/tv/x" [("/data", "/a"), ("/data/tv", "/b")]).2
     ("/data", "/a") (by decide)⟩

/-- C4 counterexample. The claim says movie.mkv.exe carries reason
double_extension; the code's first extension check fires before the
double-extension branch and reports suspicious_extension. -/
theorem C4_counterexample :
    IsSuspicious "movie.mkv.exe" [] true = (true, "suspicious_extension") ∧
    ("suspicious_extension" : String) ≠ "double_extension" := by
  decide

/-- C4 amended. movie.mkv.exe is flagged with reason
suspicious_extension for either archive flag; archive.zip (default set)
is flagged exactly when flag_archives is true; show.S01E01.mkv is never
flagged; and in general, whenever the final lowered extension is
non-empty and in the effective suspicious set, the verdict is
(false, none) for a suppressed archive and (true, suspicious_extension)
otherwise, regardless of the penultimate dot-separated segment. -/
theorem C4_suspicious_rules :
    (∀ fa : Bool, IsSuspicious "movie.mkv.exe" [] fa = (true, "suspicious_extension")) ∧
    (∀ fa : Bool, (IsSuspicious "archive.zip" [] fa).1 = fa) ∧
    (∀ fa : Bool, IsSuspicious "show.S01E01.mkv" [] fa = (false, "")) ∧
    (∀ (path : String) (extensions : List String) (fa : Bool),
      toLowerS ⟨extL path.data⟩ ≠ "" →
      ((if extensions = [] then defaultSuspiciousExtensions else extensions).contains
          (toLowerS ⟨extL path.data⟩)) = true →
      IsSuspicious path extensions fa =
        (if isArchiveExtension (toLowerS ⟨extL path.data⟩) && !fa then (false, "")
         else (true, "suspicious_extension"))) := by
  refine ⟨?_, ?_, ?_, ?_⟩
  · intro fa
    cases fa <;> decide
  · intro fa
    cases fa <;> decide
  · intro fa
    cases fa <;> decide
  · intro path extensions fa hne hmem
    unfold IsSuspicious
    dsimp only
    rw [if_neg hne, if_pos hmem]

/-- C4 witness: the general clause of the amended theorem at a concrete
path whose penultimate segment is a media extension. -/
theorem C4_witness :
    IsSuspicious "film.mkv.scr" [] false =
      (if isArchiveExtension (toLowerS ⟨extL "film.mkv.scr".data⟩) && !false then (false, "")
       else (true, "suspicious_extension")) :=
  C4_suspicious_rules.2.2.2 "film.mkv.scr" [] false (by decide) (by decide)

end Auditarr

